import Mathlib

/-
Shallow embedding of checkcors.go (current revision): a CLI tool that
fetches a list of URLs and checks each response for fixed CORS headers.
File I/O and the network are modelled as oracle inputs; all pure logic
(header canonicalisation, header checking, URL-list filtering, result
aggregation) is translated directly from the Go source.
-/

/-- Whitespace set of Go strings.TrimSpace (unicode.IsSpace), the Unicode
White_Space property: tab through carriage return, space, NEL (0x85),
NBSP (0xA0), Ogham space (0x1680), the en-quad to hair-space block
(0x2000 to 0x200A), line and paragraph separators (0x2028, 0x2029),
narrow NBSP (0x202F), medium mathematical space (0x205F) and ideographic
space (0x3000). -/
def isSpaceGo (c : Char) : Bool :=
  c == ' ' || c == '\t' || c == '\n' || c == Char.ofNat 11 || c == Char.ofNat 12 ||
  c == Char.ofNat 13 || c == Char.ofNat 133 || c == Char.ofNat 160 ||
  c == Char.ofNat 5760 ||
  c == Char.ofNat 8192 || c == Char.ofNat 8193 || c == Char.ofNat 8194 ||
  c == Char.ofNat 8195 || c == Char.ofNat 8196 || c == Char.ofNat 8197 ||
  c == Char.ofNat 8198 || c == Char.ofNat 8199 || c == Char.ofNat 8200 ||
  c == Char.ofNat 8201 || c == Char.ofNat 8202 ||
  c == Char.ofNat 8232 || c == Char.ofNat 8233 || c == Char.ofNat 8239 ||
  c == Char.ofNat 8287 || c == Char.ofNat 12288

/-- Models Go strings.TrimSpace: removes leading and trailing whitespace. -/
def trimSpace (s : String) : String :=
  ⟨((s.data.dropWhile isSpaceGo).reverse.dropWhile isSpaceGo).reverse⟩

/-- First character of a string (models the byte access trimmed[0] in Go,
which agrees with the first character test for the ASCII byte of interest). -/
def firstChar (s : String) : Char :=
  match s.data with
  | [] => Char.ofNat 0
  | c :: _ => c

/-- Models Go net/textproto validHeaderFieldByte: alphanumerics and the
token punctuation set of RFC 7230. -/
def validHeaderFieldChar (c : Char) : Bool :=
  c.isAlphanum ||
  [Char.ofNat 33, Char.ofNat 35, Char.ofNat 36, Char.ofNat 37, Char.ofNat 38,
   Char.ofNat 39, Char.ofNat 42, Char.ofNat 43, Char.ofNat 45, Char.ofNat 46,
   Char.ofNat 94, Char.ofNat 95, Char.ofNat 96, Char.ofNat 124,
   Char.ofNat 126].contains c

/-- Canonicalisation pass of Go textproto.CanonicalMIMEHeaderKey: a letter
is uppercased at the start and after each hyphen, lowercased elsewhere. -/
def canonChars : Bool → List Char → List Char
  | _, [] => []
  | upper, c :: cs =>
    let c₁ := if upper then c.toUpper else c.toLower
    c₁ :: canonChars (c₁ == '-') cs

/-- Models Go textproto.CanonicalMIMEHeaderKey: returns the string
unchanged when it holds an invalid header-field byte, otherwise
canonicalises the letter cases. -/
def canonicalKey (s : String) : String :=
  if s.data.all validHeaderFieldChar then ⟨canonChars true s.data⟩ else s

/-- Models Go net/http.Header: header entries in arrival order. Response
maps in Go store canonicalised keys; lookups canonicalise the query key,
so membership is decided by equality of canonical keys. -/
abbrev Header := List (String × String)

/-- Models Go Header.Get: first value whose canonical key matches the
canonicalised name, or the empty string when absent. -/
def Header.get (h : Header) (name : String) : String :=
  match h.find? (fun e => canonicalKey e.1 == canonicalKey name) with
  | some e => e.2
  | none => ""

/-- One structured mismatch log record emitted by checkHeaders
(slog.Error with url, header, expected, got). -/
structure LogEntry where
  url : String
  header : String
  expected : String
  got : String
deriving DecidableEq, Repr

/-- Expected response header map hardcoded in Checker.Check
(checkcors.go lines 183 to 186). Being a plain definition it is constant
for the whole development, as the literal map is constant in the program. -/
def expectedRespHeaders : List (String × String) :=
  [("Access-Control-Allow-Methods", "GET"), ("Access-Control-Allow-Origin", "*")]

/-- Loop body of checkHeaders (checkcors.go lines 190 to 201): walks the
expected entries, logging each mismatch and clearing ok, and returns the
final flag with the accumulated log. -/
def checkHeadersLoop (url : String) (h : Header) :
    List (String × String) → Bool → List LogEntry → Bool × List LogEntry
  | [], ok, logs => (ok, logs)
  | (name, val) :: rest, ok, logs =>
    let actual := Header.get h name
    if actual = val then
      checkHeadersLoop url h rest ok logs
    else
      checkHeadersLoop url h rest false
        (logs ++ [{ url := url, header := name, expected := val, got := actual }])

/-- Models checkHeaders: ok starts true and the loop runs over every
expected entry. -/
def checkHeaders (url : String) (h : Header) (expect : List (String × String)) :
    Bool × List LogEntry :=
  checkHeadersLoop url h expect true []

/-- Log entry produced for one offending expected entry. -/
def mismatchLog (url : String) (h : Header) (p : String × String) : LogEntry :=
  { url := url, header := p.1, expected := p.2, got := Header.get h p.1 }

/-- Models the outgoing http.Request: method, url, and the header map.
none models a nil Go header map, some models a non-nil map. -/
structure Request where
  method : String
  url : String
  header : Option Header
deriving DecidableEq, Repr

/-- Models http.NewRequestWithContext on success: the fresh request
carries an empty (non-nil) default header map. -/
def newRequestWithContext (url : String) : Request :=
  { method := "GET", url := url, header := some [] }

/-- Models the Checker struct: the shared request-header configuration
(nil when the -reqheaders flag was absent). The shared client is part of
the network oracle. -/
structure Checker where
  reqHeader : Option Header

/-- Request actually sent by Check: the default request with its header
map overwritten by the assignment req.Header = c.ReqHeader
(checkcors.go line 167). -/
def Checker.buildRequest (c : Checker) (url : String) : Request :=
  { newRequestWithContext url with header := c.reqHeader }

/-- Outcome of Client.Do plus the body drain: a transport error, or a
response whose body read may fail, with the response headers. -/
inductive DoResult where
  | err (e : String)
  | resp (bodyErr : Option String) (headers : Header)

/-- Models Checker.Check (checkcors.go lines 162 to 188). reqErr is the
oracle for http.NewRequestWithContext failure (malformed URL); respond is
the network oracle for the shared client. Returns the Go pair
(headersOk, err) together with the mismatch log entries emitted. -/
def Checker.Check (c : Checker) (url : String) (reqErr : Option String)
    (respond : Request → DoResult) : (Bool × Option String) × List LogEntry :=
  match reqErr with
  | some e => ((false, some ("create request: " ++ e)), [])
  | none =>
    match respond (c.buildRequest url) with
    | .err e => ((false, some ("perform request: " ++ e)), [])
    | .resp (some e) _ => ((false, some ("read body: " ++ e)), [])
    | .resp none hdrs =>
      let r := checkHeaders url hdrs expectedRespHeaders
      ((r.1, none), r.2)

/-- Network oracle that always answers with the given response headers. -/
def respOnly (h : Header) : Request → DoResult :=
  fun _ => DoResult.resp none h

/-- Line classification of loadURLs: a line is kept unless it is empty
after trimming or its first non-whitespace character is the hash sign. -/
def keepLine (line : String) : Bool :=
  let trimmed := trimSpace line
  !(trimmed == "") && !(firstChar trimmed == '#')

/-- Scan loop of loadURLs (checkcors.go lines 220 to 231): consumes every
produced line, appending kept lines verbatim to the accumulator. -/
def scanLoop : List String → List String → List String
  | [], urls => urls
  | line :: rest, urls =>
    let trimmed := trimSpace line
    if trimmed == "" then scanLoop rest urls
    else if firstChar trimmed == '#' then scanLoop rest urls
    else scanLoop rest (urls ++ [line])

/-- Models loadURLs (checkcors.go lines 212 to 237). openErr is the
os.Open oracle; lines are the lines the scanner produced before stopping;
scanErr is the Scanner.Err value consulted only after the loop. -/
def loadURLs (openErr : Option String) (lines : List String)
    (scanErr : Option String) : Except String (List String) :=
  match openErr with
  | some e => Except.error e
  | none =>
    let urls := scanLoop lines []
    match scanErr with
    | some e => Except.error ("scan: " ++ e)
    | none => Except.ok urls

/-- Oracle inputs of one invocation of run: the -reqheaders load result
(none when the flag was empty), the URL file oracle, and per-URL request
construction and network oracles. -/
structure RunInput where
  reqHeaderLoad : Option (Except String Header)
  openErr : Option String
  lines : List String
  scanErr : Option String
  reqErr : String → Option String
  respond : String → Request → DoResult

/-- Models lines 248 to 254 of run: reqheader stays nil when the flag is
empty, otherwise loadJSON either fails or fills it. -/
def loadReqHeader : Option (Except String Header) → Except String (Option Header)
  | none => Except.ok none
  | some (Except.error e) => Except.error e
  | some (Except.ok h) => Except.ok (some h)

/-- Failure condition folded into the aggregate flag for one check
(checkcors.go line 279): not ok, or a non-nil error. -/
def checkFailed (r : (Bool × Option String) × List LogEntry) : Bool :=
  !r.1.1 || r.1.2.isSome

/-- Models run (checkcors.go lines 239 to 290) with an instrumented
result: the returned error value paired with the list of URLs for which a
check goroutine was dispatched. -/
def runT (inp : RunInput) : Except String Unit × List String :=
  match loadReqHeader inp.reqHeaderLoad with
  | Except.error e => (Except.error ("load request headers: " ++ e), [])
  | Except.ok reqheader =>
    match loadURLs inp.openErr inp.lines inp.scanErr with
    | Except.error e => (Except.error ("load URLs: " ++ e), [])
    | Except.ok urls =>
      let checker : Checker := { reqHeader := reqheader }
      let results := urls.map
        (fun url => checker.Check url (inp.reqErr url) (inp.respond url))
      if results.any checkFailed then (Except.error "unsuccessful", urls)
      else (Except.ok (), urls)

/-- Error value returned by run. -/
def run (inp : RunInput) : Except String Unit := (runT inp).1

/-- URLs for which run dispatched a check goroutine. -/
def dispatchedURLs (inp : RunInput) : List String := (runT inp).2

/-- Models atomic.Bool.Store as seen by the aggregate flag: the write
replaces the state with the written value. -/
def flagStore (_s : Bool) (w : Bool) : Bool := w

/-- Flag writes performed by one check goroutine (checkcors.go lines
279 to 281): a single store of true when the check failed, none
otherwise. -/
def checkWrites (headersOk : Bool) (err : Option String) : List Bool :=
  if !headersOk || err.isSome then [true] else []

/-! Helper lemmas -/

theorem scanLoop_eq (lines : List String) :
    ∀ acc : List String, scanLoop lines acc = acc ++ lines.filter keepLine := by
  induction lines with
  | nil => intro acc; simp [scanLoop]
  | cons line rest ih =>
    intro acc
    by_cases h₁ : trimSpace line = ""
    · simp [scanLoop, keepLine, h₁, ih]
    · by_cases h₂ : firstChar (trimSpace line) = '#'
      · simp [scanLoop, keepLine, h₁, h₂, ih]
      · simp [scanLoop, keepLine, h₁, h₂, ih]

theorem checkHeadersLoop_spec (url : String) (h : Header) :
    ∀ (expect : List (String × String)) (ok : Bool) (logs : List LogEntry),
      checkHeadersLoop url h expect ok logs =
        (ok && expect.all (fun p => Header.get h p.1 == p.2),
         logs ++ (expect.filter (fun p => !(Header.get h p.1 == p.2))).map
           (mismatchLog url h)) := by
  intro expect
  induction expect with
  | nil => intro ok logs; simp [checkHeadersLoop]
  | cons p rest ih =>
    intro ok logs
    obtain ⟨name, val⟩ := p
    by_cases hv : Header.get h name = val
    · simp [checkHeadersLoop, hv, ih]
    · simp [checkHeadersLoop, hv, ih, mismatchLog]

theorem checkHeaders_spec (url : String) (h : Header) (expect : List (String × String)) :
    checkHeaders url h expect =
      (expect.all (fun p => Header.get h p.1 == p.2),
       (expect.filter (fun p => !(Header.get h p.1 == p.2))).map (mismatchLog url h)) := by
  simp [checkHeaders, checkHeadersLoop_spec]

/-! Claim theorems -/

/-- C1: on a received response, Check returns (true, nil) with no mismatch
log exactly when every expected header is present with an exactly matching
value; otherwise it returns (false, nil), with the error value nil either
way, and the emitted log holds exactly one entry per offending expected
header, all expected headers being evaluated, not just the first. -/
theorem check_mismatch_reporting (c : Checker) (url : String) (h : Header) :
    (Checker.Check c url none (respOnly h) =
      ((expectedRespHeaders.all (fun p => Header.get h p.1 == p.2), none),
       (expectedRespHeaders.filter (fun p => !(Header.get h p.1 == p.2))).map
         (mismatchLog url h)))
    ∧ ((∀ p ∈ expectedRespHeaders, Header.get h p.1 = p.2) →
        Checker.Check c url none (respOnly h) = ((true, none), []))
    ∧ ((∃ p ∈ expectedRespHeaders, Header.get h p.1 ≠ p.2) →
        (Checker.Check c url none (respOnly h)).1 = (false, none))
    ∧ (∀ name val, (name, val) ∈ expectedRespHeaders → Header.get h name ≠ val →
        ((Checker.Check c url none (respOnly h)).2.filter
          (fun l => l.header == name)).length = 1)
    ∧ ((∀ p ∈ expectedRespHeaders, Header.get h p.1 ≠ p.2) →
        (Checker.Check c url none (respOnly h)).2.length = 2) := by
  have hck : Checker.Check c url none (respOnly h) =
      ((expectedRespHeaders.all (fun p => Header.get h p.1 == p.2), none),
       (expectedRespHeaders.filter (fun p => !(Header.get h p.1 == p.2))).map
         (mismatchLog url h)) := by
    simp [Checker.Check, respOnly, checkHeaders_spec]
  refine ⟨hck, ?_, ?_, ?_, ?_⟩
  · intro hall
    rw [hck]
    have h₁ : expectedRespHeaders.all (fun p => Header.get h p.1 == p.2) = true := by
      simp only [List.all_eq_true, beq_iff_eq]
      exact hall
    have h₂ : expectedRespHeaders.filter (fun p => !(Header.get h p.1 == p.2)) = [] := by
      rw [List.filter_eq_nil_iff]
      intro a ha
      simp [hall a ha]
    rw [h₁, h₂]
    rfl
  · rintro ⟨p, hp, hne⟩
    rw [hck]
    have : expectedRespHeaders.all (fun q => Header.get h q.1 == q.2) = false := by
      rw [List.all_eq_false]
      exact ⟨p, hp, by simp [hne]⟩
    rw [this]
  · intro name val hmem hne
    rw [hck]
    simp only [expectedRespHeaders, List.mem_cons, List.mem_singleton,
      Prod.mk.injEq, List.not_mem_nil, or_false] at hmem
    rcases hmem with ⟨hn, hv⟩ | ⟨hn, hv⟩ <;> subst hn <;> subst hv <;>
      by_cases h₂ : Header.get h "Access-Control-Allow-Methods" = "GET" <;>
      by_cases h₃ : Header.get h "Access-Control-Allow-Origin" = "*" <;>
      simp_all [expectedRespHeaders, mismatchLog]
  · intro hall
    rw [hck]
    have h₂ : Header.get h "Access-Control-Allow-Methods" ≠ "GET" :=
      hall ("Access-Control-Allow-Methods", "GET") (by simp [expectedRespHeaders])
    have h₃ : Header.get h "Access-Control-Allow-Origin" ≠ "*" :=
      hall ("Access-Control-Allow-Origin", "*") (by simp [expectedRespHeaders])
    simp [expectedRespHeaders, h₂, h₃]

/-- C1 witness: a response carrying both expected headers with matching
values yields (true, nil) and no log entries. -/
theorem check_mismatch_reporting_witness :
    Checker.Check { reqHeader := none } "https://a.example" none
      (respOnly [("Access-Control-Allow-Methods", "GET"),
                 ("Access-Control-Allow-Origin", "*")]) = ((true, none), []) :=
  (check_mismatch_reporting { reqHeader := none } "https://a.example" _).2.1
    (by decide)

/-- C2: the expected response header map evaluated by Check is exactly the
two-entry mapping Access-Control-Allow-Methods to GET and
Access-Control-Allow-Origin to the wildcard, using the corrected standard
name Access-Control-Allow-Methods and not the earlier form
Access-Control-Allowed-Methods; being a definition it is constant, and
checkHeaders on it reduces to exactly those two lookups. -/
theorem expectedRespHeaders_spec :
    expectedRespHeaders =
      [("Access-Control-Allow-Methods", "GET"), ("Access-Control-Allow-Origin", "*")]
    ∧ expectedRespHeaders.map Prod.fst =
      ["Access-Control-Allow-Methods", "Access-Control-Allow-Origin"]
    ∧ "Access-Control-Allowed-Methods" ∉ expectedRespHeaders.map Prod.fst
    ∧ ∀ url h, (checkHeaders url h expectedRespHeaders).1 =
        ((Header.get h "Access-Control-Allow-Methods" == "GET") &&
         (Header.get h "Access-Control-Allow-Origin" == "*")) := by
  refine ⟨rfl, rfl, by decide, ?_⟩
  intro url h
  simp [checkHeaders_spec, expectedRespHeaders]

/-- C5: request construction failure and transport failure each make Check
return a non-nil error result with headersOk false; a body-read failure
likewise returns a non-nil error; a received response always yields a nil
error, so a header mismatch is reported only through headersOk false, never
through the error value. -/
theorem check_error_channels (c : Checker) (url e : String)
    (respond : Request → DoResult) (h : Header) :
    Checker.Check c url (some e) respond =
      ((false, some ("create request: " ++ e)), [])
    ∧ Checker.Check c url none (fun _ => DoResult.err e) =
      ((false, some ("perform request: " ++ e)), [])
    ∧ Checker.Check c url none (fun _ => DoResult.resp (some e) h) =
      ((false, some ("read body: " ++ e)), [])
    ∧ (Checker.Check c url none (respOnly h)).1.2 = none
    ∧ ((Checker.Check c url none (respOnly h)).1.1 = false →
        (Checker.Check c url none (respOnly h)).1.2 = none) := by
  refine ⟨rfl, rfl, rfl, ?_, ?_⟩ <;> simp [Checker.Check, respOnly]

/-- C5 witness: a transport failure on a concrete URL produces headersOk
false together with the wrapped non-nil perform-request error, and on a
concrete mismatching response headersOk is false while the error stays
nil. -/
theorem check_error_channels_witness :
    Checker.Check { reqHeader := none } "https://a.example" none
      (fun _ => DoResult.err "connection refused") =
      ((false, some "perform request: connection refused"), [])
    ∧ (Checker.Check { reqHeader := none } "https://a.example" none
        (respOnly [])).1.2 = none :=
  ⟨(check_error_channels { reqHeader := none } "https://a.example"
      "connection refused" (respOnly []) []).2.1,
   (check_error_channels { reqHeader := none } "https://a.example"
      "connection refused" (respOnly []) []).2.2.2.2 (by decide)⟩

/-- C6: header-name matching factors through canonicalisation, so two names
with the same canonical key look up the same value; the lower-cased
response name access-control-allow-origin satisfies the expected name
Access-Control-Allow-Origin; header-value matching is bare string equality,
so the actual value GET, POST does not satisfy the expected value GET even
though it lists GET, and a case-changed value also fails. -/
theorem headerName_caseInsensitive_value_exact :
    (∀ (h : Header) (n₁ n₂ : String), canonicalKey n₁ = canonicalKey n₂ →
        Header.get h n₁ = Header.get h n₂)
    ∧ canonicalKey "access-control-allow-origin" =
        canonicalKey "Access-Control-Allow-Origin"
    ∧ Header.get [("access-control-allow-origin", "*")]
        "Access-Control-Allow-Origin" = "*"
    ∧ (checkHeaders "u" [("access-control-allow-origin", "*"),
         ("Access-Control-Allow-Methods", "GET")] expectedRespHeaders).1 = true
    ∧ (checkHeaders "u" [("Access-Control-Allow-Methods", "GET, POST"),
         ("Access-Control-Allow-Origin", "*")] expectedRespHeaders).1 = false
    ∧ (checkHeaders "u" [("Access-Control-Allow-Methods", "get"),
         ("Access-Control-Allow-Origin", "*")] expectedRespHeaders).1 = false
    ∧ (∀ url h expect, (checkHeaders url h expect).1 =
        expect.all (fun p => Header.get h p.1 == p.2)) := by
  refine ⟨?_, by decide, by decide, by decide, by decide, by decide, ?_⟩
  · intro h n₁ n₂ hn
    unfold Header.get
    rw [show (fun e : String × String => canonicalKey e.1 == canonicalKey n₁) =
        (fun e : String × String => canonicalKey e.1 == canonicalKey n₂) from
      funext fun e => by rw [hn]]
  · intro url h expect
    simp [checkHeaders_spec]

/-- C6 witness: the name-lookup congruence applied to the concrete
lower-cased and canonical spellings of the allow-origin header. -/
theorem headerName_caseInsensitive_value_exact_witness :
    Header.get [("x", "v")] "access-control-allow-origin" =
      Header.get [("x", "v")] "Access-Control-Allow-Origin" :=
  headerName_caseInsensitive_value_exact.1 [("x", "v")]
    "access-control-allow-origin" "Access-Control-Allow-Origin" (by decide)

/-- C9: Check assigns the shared request-header configuration to the
outgoing request unconditionally: the sent request header equals the
configuration, replacing the non-empty default map of a fresh request
outright, so with no configuration the request is sent with a nil header
map; moreover Check consults the network only at requests whose header is
exactly the configuration, never a merge with defaults. -/
theorem reqHeader_replaces_default :
    (∀ (c : Checker) (url : String), (c.buildRequest url).header = c.reqHeader)
    ∧ (∀ url : String, (newRequestWithContext url).header = some [])
    ∧ (∀ url : String,
        (Checker.buildRequest { reqHeader := none } url).header = none)
    ∧ (∀ (c : Checker) (url : String) (respond₁ respond₂ : Request → DoResult),
        (∀ r : Request, r.header = c.reqHeader → respond₁ r = respond₂ r) →
        Checker.Check c url none respond₁ = Checker.Check c url none respond₂) := by
  refine ⟨fun c url => rfl, fun url => rfl, fun url => rfl, ?_⟩
  intro c url respond₁ respond₂ hagree
  unfold Checker.Check
  rw [hagree (c.buildRequest url) rfl]

/-- C9 witness: with no request-header configuration, an oracle that
distinguishes a nil header map from any other map is consulted only at the
nil map, so Check agrees with the constant oracle. -/
theorem reqHeader_replaces_default_witness :
    Checker.Check { reqHeader := none } "https://a.example" none
        (fun _ => DoResult.resp none []) =
      Checker.Check { reqHeader := none } "https://a.example" none
        (fun r => if r.header = none then DoResult.resp none []
                  else DoResult.err "nonempty header") :=
  reqHeader_replaces_default.2.2.2 { reqHeader := none } "https://a.example"
    (fun _ => DoResult.resp none [])
    (fun r => if r.header = none then DoResult.resp none []
              else DoResult.err "nonempty header")
    (fun r hr => by simp [hr])

/-- C4: the produced URL sequence holds no line that is empty after
trimming and no line whose first non-whitespace character is the hash
sign; it equals the kept-line filter of the input, hence it is a sublist
of the input in original order, and every kept line keeps its original
multiplicity (no deduplication). -/
theorem loadURLs_filters_blank_and_comment (lines : List String) :
    (∀ u ∈ scanLoop lines [], trimSpace u ≠ "" ∧ firstChar (trimSpace u) ≠ '#')
    ∧ scanLoop lines [] = lines.filter keepLine
    ∧ List.Sublist (scanLoop lines []) lines
    ∧ (∀ l : String, keepLine l = true →
        (scanLoop lines []).count l = lines.count l)
    ∧ loadURLs none lines none = Except.ok (scanLoop lines []) := by
  have heq : scanLoop lines [] = lines.filter keepLine := by
    simpa using scanLoop_eq lines []
  refine ⟨?_, heq, ?_, ?_, rfl⟩
  · intro u hu
    rw [heq] at hu
    have hk : keepLine u = true := List.of_mem_filter hu
    unfold keepLine at hk
    simp only [Bool.and_eq_true, Bool.not_eq_true', beq_eq_false_iff_ne, ne_eq] at hk
    exact hk
  · rw [heq]; exact List.filter_sublist lines
  · intro l hl
    rw [heq]
    exact List.count_filter hl

/-- C4 witness: on a concrete file holding a URL, a blank line, a comment
and a second URL, the kept line keeps its multiplicity. -/
theorem loadURLs_filters_blank_and_comment_witness :
    (scanLoop ["https://a.example", "", "# c", "https://b.example"] []).count
      "https://a.example" =
    (["https://a.example", "", "# c", "https://b.example"] : List String).count
      "https://a.example" :=
  (loadURLs_filters_blank_and_comment
    ["https://a.example", "", "# c", "https://b.example"]).2.2.2.1
    "https://a.example" (by decide)

/-- C10: every produced URL is one of the original lines verbatim; a kept
line is appended with its surrounding whitespace intact, trimming being
used only to classify the line, as the concrete line with padding shows:
it is kept unchanged although its trimmed form differs. -/
theorem keptLines_verbatim (lines : List String) :
    (∀ u ∈ scanLoop lines [], u ∈ lines)
    ∧ (∀ line : String, keepLine line = true → scanLoop [line] [] = [line])
    ∧ scanLoop ["  https://a.example  "] [] = ["  https://a.example  "]
    ∧ trimSpace "  https://a.example  " ≠ "  https://a.example  " := by
  refine ⟨?_, ?_, by decide, by decide⟩
  · intro u hu
    have heq : scanLoop lines [] = lines.filter keepLine := by
      simpa using scanLoop_eq lines []
    rw [heq] at hu
    exact List.mem_of_mem_filter hu
  · intro line hl
    have heq : scanLoop [line] [] = List.filter keepLine [line] := by
      simpa using scanLoop_eq [line] []
    rw [heq, List.filter_cons_of_pos hl, List.filter_nil]

/-- C10 witness: a concrete kept line with leading and trailing blanks is
produced verbatim. -/
theorem keptLines_verbatim_witness :
    scanLoop ["  https://b.example  "] [] = ["  https://b.example  "] :=
  (keptLines_verbatim []).2.1 "  https://b.example  " (by decide)

/-- C7: every flag write any check performs stores true, so along any
interleaving of writes drawn from concurrent checks the aggregate flag is
monotonic: once the state is true, folding any further interleaved check
writes through the atomic store leaves it true. -/
theorem hadError_flag_monotonic :
    (∀ (headersOk : Bool) (err : Option String) (w : Bool),
        w ∈ checkWrites headersOk err → w = true)
    ∧ (∀ ws : List Bool,
        (∀ w ∈ ws, ∃ (headersOk : Bool) (err : Option String),
          w ∈ checkWrites headersOk err) →
        ∀ s : Bool, s = true → List.foldl flagStore s ws = true) := by
  have honly : ∀ (headersOk : Bool) (err : Option String) (w : Bool),
      w ∈ checkWrites headersOk err → w = true := by
    intro headersOk err w hw
    unfold checkWrites at hw
    by_cases hc : (!headersOk || err.isSome) = true
    · rw [if_pos hc] at hw
      simpa using hw
    · rw [if_neg hc] at hw
      simp at hw
  refine ⟨honly, ?_⟩
  intro ws
  induction ws with
  | nil => intro _ s hs; simpa using hs
  | cons w rest ih =>
    intro hall s hs
    obtain ⟨headersOk, err, hw⟩ := hall w (List.mem_cons_self w rest)
    have hwt : w = true := honly headersOk err w hw
    subst hwt
    exact ih (fun x hx => hall x (List.mem_cons_of_mem _ hx)) true rfl

/-- C7 witness: starting from a set flag, the writes of a failed check and
of a successful check leave the flag true. -/
theorem hadError_flag_monotonic_witness :
    List.foldl flagStore true [true] = true :=
  hadError_flag_monotonic.2 [true]
    (fun w hw => ⟨false, none, by simpa [checkWrites] using hw⟩) true rfl

/-- C8: a scan-time error surfaces only after the whole produced line
sequence is drained: loadURLs reports the wrapped scan error as its final
result whatever lines were produced, and at that point the loop has
consumed every produced line (the accumulated list is the kept-line filter
of all of them); and since run dispatches checks only after a successful
load, a scan error means zero checks are dispatched, so every check
dispatched for URLs read before the error (there are none) completes. -/
theorem scanError_after_drain :
    (∀ (lines : List String) (e : String),
        loadURLs none lines (some e) = Except.error ("scan: " ++ e))
    ∧ (∀ lines : List String, scanLoop lines [] = lines.filter keepLine)
    ∧ (∀ (inp : RunInput) (e : String), inp.scanErr = some e →
        dispatchedURLs inp = []) := by
  refine ⟨fun lines e => rfl, fun lines => by simpa using scanLoop_eq lines [], ?_⟩
  intro inp e hscan
  unfold dispatchedURLs runT
  cases hld : loadReqHeader inp.reqHeaderLoad with
  | error e₁ => rfl
  | ok reqheader =>
    have hurls : loadURLs inp.openErr inp.lines inp.scanErr =
        Except.error (match inp.openErr with
          | some e₁ => e₁
          | none => "scan: " ++ e) := by
      unfold loadURLs
      cases inp.openErr with
      | some e₁ => rfl
      | none => rw [hscan]
    rw [hurls]

/-- C8 witness: a run whose scanner failed after producing one URL line
dispatches no checks. -/
theorem scanError_after_drain_witness :
    dispatchedURLs
      { reqHeaderLoad := none, openErr := none, lines := ["https://a.example"],
        scanErr := some "read failure",
        reqErr := fun _ => none,
        respond := fun _ _ => DoResult.resp none [] } = [] :=
  scanError_after_drain.2.2
    { reqHeaderLoad := none, openErr := none, lines := ["https://a.example"],
      scanErr := some "read failure",
      reqErr := fun _ => none,
      respond := fun _ _ => DoResult.resp none [] } "read failure" rfl

/-- Run input whose URL file scanner fails after producing one line, with
the reqheaders flag absent and every network call fully conforming. -/
def scanFailInput : RunInput :=
  { reqHeaderLoad := none
    openErr := none
    lines := ["https://a.example"]
    scanErr := some "boom"
    reqErr := fun _ => none
    respond := fun _ _ => DoResult.resp none expectedRespHeaders }

/-- C3 counterexample: on a URL-source failure, run returns the wrapped
load-URLs error and not the single generic unsuccessful error the claim
asserts for that case. -/
theorem run_sourceFailure_not_generic :
    run scanFailInput = Except.error "load URLs: scan: boom" ∧
    run scanFailInput ≠ Except.error "unsuccessful" := by
  refine ⟨rfl, ?_⟩
  intro h
  rw [show run scanFailInput = Except.error "load URLs: scan: boom" from rfl] at h
  injection h with h
  exact absurd h (by decide)

/-- C3 amended: given the request-header load succeeded, run returns nil
exactly when the URL source succeeded and every dispatched check returned
headersOk true with a nil error; a URL-source failure yields the wrapped
load-URLs error; a successful load with any failed check yields the single
generic unsuccessful error; an empty URL file dispatches zero checks and
run returns nil. -/
theorem run_unsuccessful_spec (inp : RunInput) (rh : Option Header)
    (hreq : loadReqHeader inp.reqHeaderLoad = Except.ok rh) :
    (run inp = Except.ok () ↔
      ∃ urls, loadURLs inp.openErr inp.lines inp.scanErr = Except.ok urls ∧
        ∀ url ∈ urls,
          checkFailed (Checker.Check { reqHeader := rh } url (inp.reqErr url)
            (inp.respond url)) = false)
    ∧ (∀ e, loadURLs inp.openErr inp.lines inp.scanErr = Except.error e →
        run inp = Except.error ("load URLs: " ++ e))
    ∧ (∀ urls, loadURLs inp.openErr inp.lines inp.scanErr = Except.ok urls →
        (∃ url ∈ urls,
          checkFailed (Checker.Check { reqHeader := rh } url (inp.reqErr url)
            (inp.respond url)) = true) →
        run inp = Except.error "unsuccessful")
    ∧ (inp.openErr = none → inp.lines = [] → inp.scanErr = none →
        dispatchedURLs inp = [] ∧ run inp = Except.ok ()) := by
  cases hld : loadURLs inp.openErr inp.lines inp.scanErr with
  | error e =>
    have hr : run inp = Except.error ("load URLs: " ++ e) := by
      unfold run runT
      rw [hreq, hld]
    refine ⟨?_, ?_, ?_, ?_⟩
    · rw [hr]
      constructor
      · intro h; exact Except.noConfusion h
      · rintro ⟨urls, hu, _⟩; exact Except.noConfusion hu
    · intro e₁ he
      injection he with he
      subst he
      exact hr
    · intro urls hu
      exact absurd hu (fun h => Except.noConfusion h)
    · intro h₁ h₂ h₃
      rw [h₁, h₂, h₃] at hld
      exact absurd hld (by simp [loadURLs, scanLoop])
  | ok urls =>
    have hrT : runT inp =
        (if (urls.map fun url => Checker.Check { reqHeader := rh } url
            (inp.reqErr url) (inp.respond url)).any checkFailed then
          (Except.error "unsuccessful", urls)
        else (Except.ok (), urls)) := by
      unfold runT
      rw [hreq, hld]
    by_cases hany : (urls.map fun url => Checker.Check { reqHeader := rh } url
        (inp.reqErr url) (inp.respond url)).any checkFailed = true
    · have hr : run inp = Except.error "unsuccessful" := by
        unfold run
        rw [hrT, if_pos hany]
      refine ⟨?_, ?_, ?_, ?_⟩
      · rw [hr]
        constructor
        · intro h; exact Except.noConfusion h
        · rintro ⟨urls₂, hu, hall⟩
          injection hu with hu
          subst hu
          rw [List.any_eq_true] at hany
          obtain ⟨r, hrm, hf⟩ := hany
          rw [List.mem_map] at hrm
          obtain ⟨url, hurl, rfl⟩ := hrm
          rw [hall url hurl] at hf
          exact Bool.noConfusion hf
      · intro e he
        exact absurd he (fun h => Except.noConfusion h)
      · intro urls₂ hu _
        exact hr
      · intro h₁ h₂ h₃
        rw [h₁, h₂, h₃] at hld
        have : urls = [] := by
          simp [loadURLs, scanLoop] at hld
          exact hld
        subst this
        simp at hany
    · have hr : run inp = Except.ok () := by
        unfold run
        rw [hrT, if_neg hany]
      have hd : dispatchedURLs inp = urls := by
        unfold dispatchedURLs
        rw [hrT, if_neg hany]
      rw [Bool.not_eq_true, List.any_eq_false] at hany
      refine ⟨?_, ?_, ?_, ?_⟩
      · rw [hr]
        constructor
        · intro _
          refine ⟨urls, rfl, fun url hurl => ?_⟩
          have := hany _ (List.mem_map_of_mem
            (fun url => Checker.Check { reqHeader := rh } url (inp.reqErr url)
              (inp.respond url)) hurl)
          simpa using this
        · intro _; rfl
      · intro e he
        exact absurd he (fun h => Except.noConfusion h)
      · intro urls₂ hu hex
        injection hu with hu
        subst hu
        obtain ⟨url, hurl, hf⟩ := hex
        have := hany _ (List.mem_map_of_mem
          (fun url => Checker.Check { reqHeader := rh } url (inp.reqErr url)
            (inp.respond url)) hurl)
        rw [hf] at this
        exact absurd this (by simp)
      · intro h₁ h₂ h₃
        have : urls = [] := by
          rw [h₁, h₂, h₃] at hld
          simp [loadURLs, scanLoop] at hld
          exact hld
        subst this
        exact ⟨hd, hr⟩

/-- Run input with no reqheaders flag and an empty URL file. -/
def emptyRun : RunInput :=
  { reqHeaderLoad := none
    openErr := none
    lines := []
    scanErr := none
    reqErr := fun _ => none
    respond := fun _ _ => DoResult.resp none [] }

/-- C3 amended witness: the empty URL file run dispatches zero checks and
returns nil. -/
theorem run_unsuccessful_spec_witness :
    dispatchedURLs emptyRun = [] ∧ run emptyRun = Except.ok () :=
  (run_unsuccessful_spec emptyRun none rfl).2.2.2 rfl rfl rfl

/-- C2 witness: the two-lookup characterisation of checkHeaders evaluated
at a concrete conforming response. -/
theorem expectedRespHeaders_spec_witness :
    (checkHeaders "https://a.example"
      [("Access-Control-Allow-Methods", "GET"),
       ("Access-Control-Allow-Origin", "*")] expectedRespHeaders).1 = true := by
  rw [expectedRespHeaders_spec.2.2.2 "https://a.example"
    [("Access-Control-Allow-Methods", "GET"), ("Access-Control-Allow-Origin", "*")]]
  decide
